import Mathlib

/-!
Shallow embedding of the structural-loss pipeline of train.py from the
protein-transformer repository: angle decoding (inverse_trig_transform),
padding masking (unpad_angle_vectors), the batch losses (cal_loss, mse_loss)
and the epoch accounting (train_epoch, eval_epoch), together with theorems
settling the specification claims about them.  Tensors are modelled as
nested lists of exact reals carrying a device tag; the functions
angles2coords and drmsd live in transformer.Structure, outside the given
sources, and are modelled from the specification where noted.
-/

/-- Compute device tag, mirroring torch.device: the script only distinguishes
cpu from cuda (unpad_angle_vectors tests whether device.type is cuda). -/
inductive Device
  | cpu
  | cuda
  deriving DecidableEq

/-- A torch tensor of angle data as the script uses it: a batch of examples,
each an ordered list of per-residue rows of real values, together with the
device the tensor lives on.  Values are exact reals; device moves retag the
tensor and leave the values unchanged. -/
@[ext]
structure Tensor where
  data : List (List (List ℝ))
  device : Device

/-- Models the tensor method to(device): data unchanged, device retagged. -/
def Tensor.to (t : Tensor) (d : Device) : Tensor := ⟨t.data, d⟩

/-- Models torch.atan2 over exact reals: the two-argument arctangent
atan2 y x is the argument of the complex number x + y i, valued in
(-pi, pi] with atan2 0 0 = 0. -/
noncomputable def atan2 (y x : ℝ) : ℝ := Complex.arg (x + y * Complex.I)

/-- Regroups a flat row of interleaved (cos, sin) values into pairs, as the
view of the trailing axis into shape (.., 11, 2) does for a row of 22
values in inverse_trig_transform. -/
def pairUp : List ℝ → List (ℝ × ℝ)
  | x :: y :: rest => (x, y) :: pairUp rest
  | _ => []

/-- One decoded residue row: the channel at index 0 of each pair is the
cosine, the channel at index 1 the sine, and the decoded angle is
torch.atan2 of (sine, cosine). -/
noncomputable def rowDecode (r : List ℝ) : List ℝ :=
  (pairUp r).map fun p => atan2 p.2 p.1

/-- Translation of inverse_trig_transform: view the (B, L, 22) tensor as
(B, -1, 11, 2), take the cosine channel [.., 0] and the sine channel
[.., 1], and apply torch.atan2(sin, cos).  On the (B, L, 22) tensors the
script feeds it, the view regroups each length-22 row into 11 (cos, sin)
pairs, which rowDecode performs row by row.  The device is untouched. -/
noncomputable def inverse_trig_transform (t : Tensor) : Tensor :=
  ⟨t.data.map (List.map rowDecode), t.device⟩

/-- One element of pred times the corresponding element of the 0/1 mask
obtained from casting the boolean tensor (gold != 0) to floats. -/
noncomputable def elemMask (p g : ℝ) : ℝ := p * (if g ≠ 0 then 1 else 0)

/-- The masked elementwise multiply of unpad_angle_vectors on one example. -/
noncomputable def maskEx (p g : List (List ℝ)) : List (List ℝ) :=
  List.zipWith (fun pr gr => List.zipWith elemMask pr gr) p g

/-- The masked elementwise multiply on a whole batch. -/
noncomputable def maskBatch (p g : List (List (List ℝ))) : List (List (List ℝ)) :=
  List.zipWith maskEx p g

/-- Translation of unpad_angle_vectors: not_padded_mask = (gold != 0) is an
elementwise boolean tensor of the shape of gold; on the cuda branch both
products are formed from tensors moved to cuda, on the cpu branch the
tensors stay where they are; numerically both branches multiply pred and
gold elementwise by the 0/1 mask. -/
noncomputable def unpad_angle_vectors (pred gold : Tensor) (device : Device) :
    Tensor × Tensor :=
  if device = Device.cuda then
    (⟨maskBatch pred.data gold.data, Device.cuda⟩,
     ⟨maskBatch gold.data gold.data, Device.cuda⟩)
  else
    (⟨maskBatch pred.data gold.data, pred.device⟩,
     ⟨maskBatch gold.data gold.data, gold.device⟩)

/-- A 3D coordinate. -/
abbrev Vec3 := ℝ × ℝ × ℝ

/-- Euclidean distance between two 3D points. -/
noncomputable def dist3 (a b : Vec3) : ℝ :=
  Real.sqrt ((a.1 - b.1) ^ 2 + (a.2.1 - b.2.1) ^ 2 + (a.2.2 - b.2.2) ^ 2)

/-- Modelled from the spec: the Distance-RMSD Scorer drmsd, which the script
pulls from transformer.Structure, a module not under the given sources.
Following section 4.4, it is the square root of the mean over the n-by-n
pairwise-distance matrices of the squared entry differences; with n = 0 the
quotient 0/0 is 0, and with n = 1 the only entry difference is 0, so a
length of at most 1 yields the defined value 0 asked for there. -/
noncomputable def drmsd (A B : List Vec3) : ℝ :=
  Real.sqrt ((∑ i ∈ Finset.range A.length, ∑ j ∈ Finset.range A.length,
    (dist3 (A.getD i default) (A.getD j default)
      - dist3 (B.getD i default) (B.getD j default)) ^ 2) / (A.length : ℝ) ^ 2)

/-- True when a residue row has some nonzero entry, i.e. is not the all-zero
padding pattern. -/
noncomputable def keepRow (r : List ℝ) : Bool := r.any fun x => decide (x ≠ 0)

/-- Modelled from the spec: the Forward-Kinematics Builder angles2coords,
which the script pulls from transformer.Structure, a module not under the
given sources.  Per sections 4.2 and 4.3 it consumes one masked, decoded
angle sequence, and per section 7 an example whose rows are all zero
degenerates to a near-empty coordinate sequence, so positions masked to
all-zero are dropped before reconstruction.  The NeRF atom placement itself
(section 4.3), whose bootstrap frame and bond constants are not given in the
sources, is abstracted as the build argument; the device argument mirrors
the source signature and does not change coordinate values. -/
noncomputable def angles2coords (build : List (List ℝ) → List Vec3)
    (angles : List (List ℝ)) (device : Device) : List Vec3 :=
  build (angles.filter keepRow)

/-- Models torch.mean applied to the stack of a list of scalar losses: the
sum divided by the count. -/
noncomputable def torchMean (l : List ℝ) : ℝ := l.sum / l.length

/-- Translation of cal_loss: rebind device to cpu, move both tensors there,
decode both through inverse_trig_transform, mask both through
unpad_angle_vectors, then for each example of the batch build coordinates
for gold and pred with angles2coords, score them with drmsd, and return the
mean of the stacked per-example losses; the scalar result lives on the
rebound device.  angles2coords and drmsd are outside the given sources and
modelled from the spec; the NeRF builder is threaded as the build
argument. -/
noncomputable def cal_loss (build : List (List ℝ) → List Vec3)
    (pred gold : Tensor) (device : Device) : ℝ × Device :=
  let device := Device.cpu
  let pred := pred.to device
  let gold := gold.to device
  let pred := inverse_trig_transform pred
  let gold := inverse_trig_transform gold
  let pg := unpad_angle_vectors pred gold device
  let losses := (List.zip pg.1.data pg.2.data).map fun item =>
    drmsd (angles2coords build item.1 device) (angles2coords build item.2 device)
  (torchMean losses, device)

/-- The per-example structural losses cal_loss collects before its mean
reduction: one drmsd score per (pred_item, gold_item) pair of the zipped
masked decoded batch. -/
noncomputable def perExampleLosses (build : List (List ℝ) → List Vec3)
    (pred gold : Tensor) : List ℝ :=
  let pred := inverse_trig_transform (Tensor.to pred Device.cpu)
  let gold := inverse_trig_transform (Tensor.to gold Device.cpu)
  let pg := unpad_angle_vectors pred gold Device.cpu
  (List.zip pg.1.data pg.2.data).map fun item =>
    drmsd (angles2coords build item.1 Device.cpu) (angles2coords build item.2 Device.cpu)

/-- Models torch.nn.functional.mse_loss with the default mean reduction on
two equal-shaped tensors: the mean over all elements of the squared
differences. -/
noncomputable def F_mse_loss (a b : List (List (List ℝ))) : ℝ :=
  torchMean (List.zipWith (fun x y => (x - y) ^ 2) a.flatten.flatten b.flatten.flatten)

/-- Translation of mse_loss: move both tensors to cpu, mask both through
unpad_angle_vectors, and return the mean squared error of the two masked
tensors; the scalar result lives on cpu. -/
noncomputable def mse_loss (pred gold : Tensor) : ℝ × Device :=
  let device := Device.cpu
  let pred := pred.to device
  let gold := gold.to device
  let pg := unpad_angle_vectors pred gold device
  (F_mse_loss pg.1.data pg.2.data, device)

/-- The alternate angle loss as the specification words it: Angle Codec
first (section 4.1), then the Padding Mask (section 4.2), then the mean
squared error of the masked, decoded angle tensors. -/
noncomputable def mse_loss_spec_path (pred gold : Tensor) : ℝ :=
  let pred := inverse_trig_transform (Tensor.to pred Device.cpu)
  let gold := inverse_trig_transform (Tensor.to gold Device.cpu)
  let pg := unpad_angle_vectors pred gold Device.cpu
  F_mse_loss pg.1.data pg.2.data

/-- The Padding Mask of one example as the specification words it: a
per-residue-position boolean validity mask, true iff the reference row at
that position is not entirely zero, multiplied as 0/1 into every channel. -/
noncomputable def specPositionMask (p g : List (List ℝ)) : List (List ℝ) :=
  List.zipWith (fun pr gr => pr.map fun x => x * (if keepRow gr then 1 else 0)) p g

/-- The unpadding operation as the specification words it: the per-position
validity mask of each example, derived from the reference, applied
identically to prediction and reference. -/
noncomputable def spec_unpad (pred gold : Tensor) : Tensor × Tensor :=
  (⟨List.zipWith specPositionMask pred.data gold.data, pred.device⟩,
   ⟨List.zipWith specPositionMask gold.data gold.data, gold.device⟩)

/-- Tensor shapes, for the shape-level semantics of the masked multiply. -/
abbrev Shape := List Nat

/-- One dimension of the broadcasting rule of the tensor library: equal
sizes pass through, and a size of 1 stretches to the other size. -/
def bcastDim (a b : Nat) : Option Nat :=
  if a = b then some a
  else if a = 1 then some b
  else if b = 1 then some a
  else none

/-- Broadcasting of two shapes given with their dimensions reversed, so that
alignment starts from the trailing dimension; a missing leading dimension
counts as size 1. -/
def bcastRev : List Nat → List Nat → Option (List Nat)
  | [], ys => some ys
  | xs, [] => some xs
  | x :: xs, y :: ys =>
    match bcastDim x y, bcastRev xs ys with
    | some d, some rest => some (d :: rest)
    | _, _ => none

/-- Shape semantics of an elementwise binary operation of the tensor
library: defined exactly when the shapes are broadcastable, i.e. every
trailing-aligned pair of dimensions is equal or contains a 1. -/
def broadcastShapes (a b : Shape) : Option Shape :=
  (bcastRev a.reverse b.reverse).map List.reverse

/-- Shape-level semantics of unpad_angle_vectors: the mask (gold != 0) has
the shape of gold; the products pred * mask and gold * mask each follow the
broadcasting rule, and none models the raised runtime error on shapes that
are not broadcastable. -/
def unpadShapes (predShape goldShape : Shape) : Option (Shape × Shape) :=
  match broadcastShapes predShape goldShape, broadcastShapes goldShape goldShape with
  | some p, some g => some (p, g)
  | _, _ => none

/-- The Python error raised by a division whose denominator is zero. -/
inductive PyError
  | zeroDivisionError
  deriving DecidableEq

/-- Python division on floats: raises ZeroDivisionError when the denominator
is zero, otherwise returns the quotient. -/
noncomputable def pyDiv (a b : ℝ) : Except PyError ℝ :=
  if b = 0 then Except.error PyError.zeroDivisionError else Except.ok (a / b)

/-- Translation of the loss accounting of train_epoch: total_loss starts at
0 and accumulates the loss of each batch, n_batches starts at 0.0 and is
incremented once per batch, and the epoch returns total_loss / n_batches
with Python division semantics.  The model forward and backward pass and the
optimizer step for one batch are abstracted into the step argument yielding
the scalar loss of that batch; the progress bar and printing are omitted. -/
noncomputable def train_epoch {β : Type} (step : β → ℝ) (training_data : List β) :
    Except PyError ℝ :=
  let acc := training_data.foldl (fun a batch => (a.1 + step batch, a.2 + 1)) ((0 : ℝ), (0 : ℝ))
  pyDiv acc.1 acc.2

/-- Translation of the loss accounting of eval_epoch, identical to that of
train_epoch except that the forward pass runs under no_grad, which does not
change the computed value and is abstracted into the step argument. -/
noncomputable def eval_epoch {β : Type} (step : β → ℝ) (validation_data : List β) :
    Except PyError ℝ :=
  let acc := validation_data.foldl (fun a batch => (a.1 + step batch, a.2 + 1)) ((0 : ℝ), (0 : ℝ))
  pyDiv acc.1 acc.2

/-! ### Helper lemmas -/

theorem elemMask_eq_ite (p g : ℝ) : elemMask p g = if g = 0 then 0 else p := by
  unfold elemMask
  by_cases h : g = 0 <;> simp [h]

theorem elemMask_self (g : ℝ) : elemMask g g = g := by
  rw [elemMask_eq_ite]
  by_cases h : g = 0 <;> simp [h]

theorem elemMask_idem (p g : ℝ) : elemMask (elemMask p g) g = elemMask p g := by
  by_cases h : g = 0 <;> simp [elemMask_eq_ite, h]

theorem zipWith_elemMask_self (g : List ℝ) : List.zipWith elemMask g g = g := by
  induction g with
  | nil => rfl
  | cons a l ih => simp [elemMask_self, ih]

theorem zipWith_elemMask_idem (p g : List ℝ) :
    List.zipWith elemMask (List.zipWith elemMask p g) g = List.zipWith elemMask p g := by
  induction p generalizing g with
  | nil => rfl
  | cons a l ih =>
    cases g with
    | nil => rfl
    | cons b m => simp [elemMask_idem, ih]

theorem maskEx_self (g : List (List ℝ)) : maskEx g g = g := by
  unfold maskEx
  induction g with
  | nil => rfl
  | cons a l ih => simp [zipWith_elemMask_self, elemMask_self, ih]

theorem maskEx_idem (p g : List (List ℝ)) : maskEx (maskEx p g) g = maskEx p g := by
  unfold maskEx
  induction p generalizing g with
  | nil => rfl
  | cons a l ih =>
    cases g with
    | nil => rfl
    | cons b m => simp [zipWith_elemMask_idem, ih]

theorem maskBatch_self (g : List (List (List ℝ))) : maskBatch g g = g := by
  unfold maskBatch
  induction g with
  | nil => rfl
  | cons a l ih => simp [maskEx_self, ih]

theorem maskBatch_idem (p g : List (List (List ℝ))) :
    maskBatch (maskBatch p g) g = maskBatch p g := by
  unfold maskBatch
  induction p generalizing g with
  | nil => rfl
  | cons a l ih =>
    cases g with
    | nil => rfl
    | cons b m => simp [maskEx_idem, ih]

theorem unpad_fst_data (pred gold : Tensor) (d : Device) :
    (unpad_angle_vectors pred gold d).1.data = maskBatch pred.data gold.data := by
  cases d <;> simp [unpad_angle_vectors]

theorem unpad_snd_data (pred gold : Tensor) (d : Device) :
    (unpad_angle_vectors pred gold d).2.data = gold.data := by
  cases d <;> simp [unpad_angle_vectors, maskBatch_self]

theorem atan2_zero_zero : atan2 0 0 = 0 := by
  simp [atan2]

theorem atan2_zero_one : atan2 0 1 = 0 := by
  simp [atan2]

theorem atan2_one_zero : atan2 1 0 = Real.pi / 2 := by
  simp [atan2, Complex.arg_I]

theorem elemMask_fun : elemMask = fun p g : ℝ => if g = 0 then 0 else p := by
  funext p g
  exact elemMask_eq_ite p g

theorem maskEx_eq :
    maskEx = List.zipWith (List.zipWith fun a b : ℝ => if b = 0 then 0 else a) := by
  funext p g
  unfold maskEx
  rw [elemMask_fun]

theorem maskBatch_eq (p g : List (List (List ℝ))) :
    maskBatch p g
      = List.zipWith (List.zipWith (List.zipWith fun a b : ℝ => if b = 0 then 0 else a)) p g := by
  unfold maskBatch
  rw [maskEx_eq]

/-! ### Claim theorems -/

/-- C1 (amended): the validity mask of unpad_angle_vectors is a per-element
0/1 factor, nonzero exactly where the reference element is nonzero; it is
derived from the reference alone and applied identically to the prediction
and the reference, leaving the reference unchanged.  In particular every
element of the prediction at a fully zero (padded) reference position is
zeroed, so such positions contribute nothing to the loss. -/
theorem claim_C1 (pred gold : Tensor) (d : Device) :
    (unpad_angle_vectors pred gold d).1.data
      = List.zipWith (List.zipWith (List.zipWith fun p g => if g = 0 then 0 else p))
          pred.data gold.data
    ∧ (unpad_angle_vectors pred gold d).2.data
      = List.zipWith (List.zipWith (List.zipWith fun p g => if g = 0 then 0 else p))
          gold.data gold.data
    ∧ (unpad_angle_vectors pred gold d).2.data = gold.data := by
  refine ⟨?_, ?_, unpad_snd_data pred gold d⟩
  · rw [unpad_fst_data, maskBatch_eq]
  · rw [unpad_snd_data, ← maskBatch_eq, maskBatch_self]

/-- C1 counterexample: the claim says the mask is per residue position, true
iff the reference row is not all zero.  At the reference row [0, 1] that
per-position mask keeps the whole prediction row [1, 1], but the code masks
per element and zeroes the first prediction element, because the first
reference element is 0 even though the position is not padding. -/
theorem claim_C1_counterexample :
    (unpad_angle_vectors ⟨[[[1, 1]]], Device.cpu⟩ ⟨[[[0, 1]]], Device.cpu⟩ Device.cpu).1.data
      ≠ (spec_unpad ⟨[[[1, 1]]], Device.cpu⟩ ⟨[[[0, 1]]], Device.cpu⟩).1.data := by
  rw [unpad_fst_data]
  simp [maskBatch, maskEx, elemMask_eq_ite, spec_unpad, specPositionMask, keepRow]

/-- C5: applying the padding-mask operation unpad_angle_vectors twice yields
exactly the same pair of tensors (values and devices) as applying it once. -/
theorem claim_C5 (pred gold : Tensor) (d : Device) :
    unpad_angle_vectors (unpad_angle_vectors pred gold d).1
        (unpad_angle_vectors pred gold d).2 d
      = unpad_angle_vectors pred gold d := by
  cases d <;> simp [unpad_angle_vectors, maskBatch_self, maskBatch_idem]

/-- C9: cal_loss is noninterfering in its device argument: any two device
arguments give the same scalar (and the same result device), because the
function rebinds the device to cpu before anything else, so the cuda branch
of unpad_angle_vectors is never taken from cal_loss. -/
theorem claim_C9 (build : List (List ℝ) → List Vec3) (pred gold : Tensor)
    (d1 d2 : Device) :
    cal_loss build pred gold d1 = cal_loss build pred gold d2
    ∧ (cal_loss build pred gold d1).2 = Device.cpu :=
  ⟨rfl, rfl⟩

/-- C10: on an empty data iterable both epoch loops leave n_batches at 0 and
the final total_loss / n_batches raises ZeroDivisionError instead of
returning an epoch loss. -/
theorem claim_C10 {β : Type} (step1 step2 : β → ℝ) :
    train_epoch step1 ([] : List β) = Except.error PyError.zeroDivisionError
    ∧ eval_epoch step2 ([] : List β) = Except.error PyError.zeroDivisionError :=
  ⟨by simp [train_epoch, pyDiv], by simp [eval_epoch, pyDiv]⟩

/-- C3: for every angle in (-pi, pi], decoding the encoded (cos, sin) pair
through inverse_trig_transform returns that angle exactly, over exact real
arithmetic. -/
theorem claim_C3 (θ : ℝ) (h1 : -Real.pi < θ) (h2 : θ ≤ Real.pi) :
    (inverse_trig_transform ⟨[[[Real.cos θ, Real.sin θ]]], Device.cpu⟩).data
      = [[[θ]]] := by
  have h : atan2 (Real.sin θ) (Real.cos θ) = θ := by
    unfold atan2
    rw [Complex.ofReal_cos, Complex.ofReal_sin]
    exact Complex.arg_cos_add_sin_mul_I ⟨h1, h2⟩
  simp [inverse_trig_transform, rowDecode, pairUp, h]

/-- C3 witness: the round trip at the concrete angle 0. -/
theorem claim_C3_witness :
    (-Real.pi < (0 : ℝ) ∧ (0 : ℝ) ≤ Real.pi)
    ∧ (inverse_trig_transform ⟨[[[Real.cos 0, Real.sin 0]]], Device.cpu⟩).data
      = [[[(0 : ℝ)]]] := by
  have h1 : -Real.pi < (0 : ℝ) := neg_lt_zero.mpr Real.pi_pos
  exact ⟨⟨h1, Real.pi_pos.le⟩, claim_C3 0 h1 Real.pi_pos.le⟩

/-- C7: the Angle Codec is total (it is a Lean function) and bounded: every
angle it outputs lies in (-pi, pi], and the all-zero pair decodes to the
angle 0. -/
theorem claim_C7 :
    (∀ t : Tensor, ∀ ex ∈ (inverse_trig_transform t).data, ∀ row ∈ ex, ∀ x ∈ row,
        -Real.pi < x ∧ x ≤ Real.pi)
    ∧ atan2 0 0 = 0 := by
  constructor
  · intro t ex hex row hrow x hx
    simp only [inverse_trig_transform, List.mem_map] at hex
    obtain ⟨ex0, _, rfl⟩ := hex
    simp only [List.mem_map] at hrow
    obtain ⟨r0, _, rfl⟩ := hrow
    simp only [rowDecode, List.mem_map] at hx
    obtain ⟨p, _, rfl⟩ := hx
    simp only [atan2]
    exact Set.mem_Ioc.mp (Complex.arg_mem_Ioc _)
  · exact atan2_zero_zero

/-- C7 witness: the bound at the concrete decoded tensor of the pair (1, 0),
whose decoded angle is 0. -/
theorem claim_C7_witness : -Real.pi < (0 : ℝ) ∧ (0 : ℝ) ≤ Real.pi :=
  claim_C7.1 ⟨[[[1, 0]]], Device.cpu⟩ [[0]]
    (by simp [inverse_trig_transform, rowDecode, pairUp, atan2_zero_one]) [0]
    (by simp) 0 (by simp)

/-- C4: cal_loss computes one drmsd scalar per example of the batch and
reduces them with torch.mean, the arithmetic mean; and the mean it uses
aggregates per-example losses 0.1, 0.2, 0.3, 0.4 to 0.25. -/
theorem claim_C4 :
    (∀ (build : List (List ℝ) → List Vec3) (pred gold : Tensor) (d : Device),
        (cal_loss build pred gold d).1 = torchMean (perExampleLosses build pred gold))
    ∧ torchMean [(0.1 : ℝ), 0.2, 0.3, 0.4] = 0.25 := by
  refine ⟨fun build pred gold d => rfl, ?_⟩
  norm_num [torchMean, List.sum_cons, List.sum_nil]

theorem mse_loss_eq (pred gold : Tensor) :
    (mse_loss pred gold).1 = F_mse_loss (maskBatch pred.data gold.data) gold.data := by
  have h : (mse_loss pred gold).1
      = F_mse_loss
          ((unpad_angle_vectors (Tensor.to pred Device.cpu) (Tensor.to gold Device.cpu)
              Device.cpu).1.data)
          ((unpad_angle_vectors (Tensor.to pred Device.cpu) (Tensor.to gold Device.cpu)
              Device.cpu).2.data) := rfl
  rw [h, unpad_fst_data, unpad_snd_data]
  rfl

theorem mse_spec_eq (pred gold : Tensor) :
    mse_loss_spec_path pred gold
      = F_mse_loss
          (maskBatch (pred.data.map (List.map rowDecode)) (gold.data.map (List.map rowDecode)))
          (gold.data.map (List.map rowDecode)) := by
  have h : mse_loss_spec_path pred gold
      = F_mse_loss
          ((unpad_angle_vectors (inverse_trig_transform (Tensor.to pred Device.cpu))
              (inverse_trig_transform (Tensor.to gold Device.cpu)) Device.cpu).1.data)
          ((unpad_angle_vectors (inverse_trig_transform (Tensor.to pred Device.cpu))
              (inverse_trig_transform (Tensor.to gold Device.cpu)) Device.cpu).2.data) := rfl
  rw [h, unpad_fst_data, unpad_snd_data]
  rfl

/-- C2 (amended): mse_loss applies the padding mask directly to the raw
sine/cosine encoded tensors, with no Angle Codec decode, and returns the
mean squared error between the masked prediction and the reference (which
the mask leaves unchanged); it performs no structure reconstruction. -/
theorem claim_C2 (pred gold : Tensor) :
    (mse_loss pred gold).1
      = F_mse_loss
          ((unpad_angle_vectors (Tensor.to pred Device.cpu) (Tensor.to gold Device.cpu)
              Device.cpu).1.data)
          gold.data := by
  rw [mse_loss_eq, unpad_fst_data]
  rfl

/-- C2 counterexample: on the single-residue batch whose reference row
encodes the angle pi/2 as the pair (0, 1) and whose prediction row is the
pair (5, 1), mse_loss masks the raw tensors and returns 0 (the masked raw
tensors agree), while the path the claim describes, decoding through the
Angle Codec before masking, gives the nonzero value
(atan2 1 5 - pi/2)^2 / 11; so mse_loss does not decode before masking. -/
theorem claim_C2_counterexample :
    (mse_loss
        ⟨[[[5, 1, 0, 0, 0, 0, 0, 0, 0, 0, 0, 0, 0, 0, 0, 0, 0, 0, 0, 0, 0, 0]]], Device.cpu⟩
        ⟨[[[0, 1, 0, 0, 0, 0, 0, 0, 0, 0, 0, 0, 0, 0, 0, 0, 0, 0, 0, 0, 0, 0]]], Device.cpu⟩).1
      ≠ mse_loss_spec_path
        ⟨[[[5, 1, 0, 0, 0, 0, 0, 0, 0, 0, 0, 0, 0, 0, 0, 0, 0, 0, 0, 0, 0, 0]]], Device.cpu⟩
        ⟨[[[0, 1, 0, 0, 0, 0, 0, 0, 0, 0, 0, 0, 0, 0, 0, 0, 0, 0, 0, 0, 0, 0]]], Device.cpu⟩ := by
  have hne : atan2 1 5 ≠ Real.pi / 2 := by
    unfold atan2
    rw [Ne, Complex.arg_eq_pi_div_two_iff]
    intro hcontra
    have h5 := hcontra.1
    simp at h5
  have hc : (mse_loss
        ⟨[[[5, 1, 0, 0, 0, 0, 0, 0, 0, 0, 0, 0, 0, 0, 0, 0, 0, 0, 0, 0, 0, 0]]], Device.cpu⟩
        ⟨[[[0, 1, 0, 0, 0, 0, 0, 0, 0, 0, 0, 0, 0, 0, 0, 0, 0, 0, 0, 0, 0, 0]]], Device.cpu⟩).1
      = 0 := by
    rw [mse_loss_eq]
    norm_num [maskBatch, maskEx, elemMask, F_mse_loss, torchMean]
  have hs : mse_loss_spec_path
        ⟨[[[5, 1, 0, 0, 0, 0, 0, 0, 0, 0, 0, 0, 0, 0, 0, 0, 0, 0, 0, 0, 0, 0]]], Device.cpu⟩
        ⟨[[[0, 1, 0, 0, 0, 0, 0, 0, 0, 0, 0, 0, 0, 0, 0, 0, 0, 0, 0, 0, 0, 0]]], Device.cpu⟩
      = (atan2 1 5 - Real.pi / 2) ^ 2 / 11 := by
    rw [mse_spec_eq]
    norm_num [rowDecode, pairUp, atan2_zero_zero, atan2_one_zero, maskBatch, maskEx,
      elemMask, F_mse_loss, torchMean, Real.pi_ne_zero]
  rw [hc, hs]
  have h3 : atan2 1 5 - Real.pi / 2 ≠ 0 := sub_ne_zero.mpr hne
  have h2 : 0 < (atan2 1 5 - Real.pi / 2) ^ 2 :=
    lt_of_le_of_ne (sq_nonneg _) (Ne.symm (pow_ne_zero 2 h3))
  exact ne_of_lt (div_pos h2 (by norm_num))

theorem pairUp_replicate_zero (n : Nat) :
    pairUp (List.replicate (2 * n) (0 : ℝ)) = List.replicate n ((0 : ℝ), (0 : ℝ)) := by
  induction n with
  | zero => rfl
  | succ k ih =>
    have h : 2 * (k + 1) = 2 * k + 1 + 1 := by ring
    rw [h, List.replicate_succ, List.replicate_succ]
    simp [pairUp, ih, List.replicate_succ]

theorem rowDecode_replicate22 :
    rowDecode (List.replicate 22 (0 : ℝ)) = List.replicate 11 (0 : ℝ) := by
  have h : (22 : Nat) = 2 * 11 := by norm_num
  rw [rowDecode, h, pairUp_replicate_zero]
  simp [atan2_zero_zero]

theorem mem_zipWith_elemMask_zero (p : List ℝ) (n : Nat) :
    ∀ x ∈ List.zipWith elemMask p (List.replicate n (0 : ℝ)), x = 0 := by
  induction p generalizing n with
  | nil => intro x hx; simp at hx
  | cons a l ih =>
    intro x hx
    cases n with
    | zero => simp at hx
    | succ m =>
      rw [List.replicate_succ] at hx
      simp only [List.zipWith_cons_cons, List.mem_cons] at hx
      rcases hx with rfl | hx
      · simp [elemMask]
      · exact ih m x hx

theorem keepRow_false_of_all_zero (r : List ℝ) (h : ∀ x ∈ r, x = 0) :
    keepRow r = false := by
  simp only [keepRow, List.any_eq_false]
  intro x hx
  simp [h x hx]

theorem keepRow_replicate_zero (n : Nat) : keepRow (List.replicate n (0 : ℝ)) = false :=
  keepRow_false_of_all_zero _ fun x hx => List.eq_of_mem_replicate hx

theorem keepRow_mask_zero (p : List ℝ) (n : Nat) :
    keepRow (List.zipWith elemMask p (List.replicate n (0 : ℝ))) = false :=
  keepRow_false_of_all_zero _ (mem_zipWith_elemMask_zero p n)

theorem cal_loss_eq (build : List (List ℝ) → List Vec3) (pred gold : Tensor) (d : Device) :
    (cal_loss build pred gold d).1
      = torchMean
          ((List.zip
              (maskBatch (pred.data.map (List.map rowDecode))
                (gold.data.map (List.map rowDecode)))
              (gold.data.map (List.map rowDecode))).map
            fun item => drmsd (build (item.1.filter keepRow)) (build (item.2.filter keepRow))) := by
  have h : (cal_loss build pred gold d).1
      = torchMean
          ((List.zip
              (unpad_angle_vectors (inverse_trig_transform (Tensor.to pred Device.cpu))
                (inverse_trig_transform (Tensor.to gold Device.cpu)) Device.cpu).1.data
              (unpad_angle_vectors (inverse_trig_transform (Tensor.to pred Device.cpu))
                (inverse_trig_transform (Tensor.to gold Device.cpu)) Device.cpu).2.data).map
            fun item =>
              drmsd (angles2coords build item.1 Device.cpu)
                (angles2coords build item.2 Device.cpu)) := rfl
  rw [h, unpad_fst_data, unpad_snd_data]
  rfl

/-- C6: a reference of length 3 zero-padded to length 6, against a
prediction with arbitrary (in particular nonzero) rows in positions 3 to 5,
yields through cal_loss exactly the loss of the same pair truncated to
length 3 before padding: the padded positions decode to all-zero rows, the
mask zeroes the prediction there, and the builder drops the all-zero rows
before reconstruction. -/
theorem claim_C6 (build : List (List ℝ) → List Vec3)
    (g0 g1 g2 p0 p1 p2 q0 q1 q2 : List ℝ) (d : Device) :
    (cal_loss build ⟨[[p0, p1, p2, q0, q1, q2]], Device.cpu⟩
        ⟨[[g0, g1, g2, List.replicate 22 0, List.replicate 22 0, List.replicate 22 0]],
          Device.cpu⟩ d).1
      = (cal_loss build ⟨[[p0, p1, p2]], Device.cpu⟩ ⟨[[g0, g1, g2]], Device.cpu⟩ d).1 := by
  rw [cal_loss_eq, cal_loss_eq]
  simp only [List.map_cons, List.map_nil, rowDecode_replicate22, maskBatch, maskEx,
    List.zipWith_cons_cons, List.zipWith_nil_right, List.zip_cons_cons, List.zip_nil_right,
    List.filter_cons, List.filter_nil, keepRow_mask_zero, keepRow_replicate_zero,
    Bool.false_eq_true, if_false]

theorem bcastRev_conflict (xs ys : List Nat)
    (h : ∃ ab ∈ List.zip xs ys, ab.1 ≠ ab.2 ∧ ab.1 ≠ 1 ∧ ab.2 ≠ 1) :
    bcastRev xs ys = none := by
  induction xs generalizing ys with
  | nil => simp at h
  | cons x xs ih =>
    cases ys with
    | nil => simp at h
    | cons y ys =>
      simp only [List.zip_cons_cons, List.mem_cons] at h
      obtain ⟨ab, hab, hc⟩ := h
      rcases hab with rfl | hab
      · have h1 : x ≠ y := hc.1
        have h2 : x ≠ 1 := hc.2.1
        have h3 : y ≠ 1 := hc.2.2
        have hd : bcastDim x y = none := by simp [bcastDim, h1, h2, h3]
        cases hb : bcastRev xs ys <;> simp [bcastRev, hd, hb]
      · have hr : bcastRev xs ys = none := ih ys ⟨ab, hab, hc⟩
        cases hb : bcastDim x y <;> simp [bcastRev, hr, hb]

/-- C8 (amended): a shape mismatch between the predicted and reference
tensors is fatal exactly when the shapes are not broadcastable: whenever
some trailing-aligned pair of dimensions differs with neither equal to 1,
the masked multiply of the loss pipeline raises immediately (none);
mismatched but broadcastable shapes instead proceed by silent
broadcasting. -/
theorem claim_C8 (p g : Shape)
    (h : ∃ ab ∈ List.zip p.reverse g.reverse, ab.1 ≠ ab.2 ∧ ab.1 ≠ 1 ∧ ab.2 ≠ 1) :
    unpadShapes p g = none := by
  have hb : bcastRev p.reverse g.reverse = none := bcastRev_conflict _ _ h
  cases hg : bcastRev g.reverse g.reverse <;>
    simp [unpadShapes, broadcastShapes, hb, hg]

/-- C8 witness: shapes (4, 2, 11) and (4, 3, 11) conflict in the middle
dimension, and the masked multiply indeed raises. -/
theorem claim_C8_witness :
    (∃ ab ∈ List.zip ([4, 2, 11] : Shape).reverse ([4, 3, 11] : Shape).reverse,
        ab.1 ≠ ab.2 ∧ ab.1 ≠ 1 ∧ ab.2 ≠ 1)
    ∧ unpadShapes [4, 2, 11] [4, 3, 11] = none :=
  ⟨by decide, claim_C8 [4, 2, 11] [4, 3, 11] (by decide)⟩

/-- C8 counterexample: the shapes (1, 2, 11) and (1, 1, 11) are mismatched,
yet the masked multiply does not fail: it proceeds by broadcasting the
reference (and its mask) along the second dimension, so a shape mismatch is
not always fatal. -/
theorem claim_C8_counterexample :
    ([1, 2, 11] : Shape) ≠ [1, 1, 11]
    ∧ unpadShapes [1, 2, 11] [1, 1, 11] = some ([1, 2, 11], [1, 1, 11]) := by
  decide
